import Mathlib

/-!
Verification development for the gohome recipe manager, device model,
validation helpers and feature-reporting suppression.

Go maps are modelled as association lists with replace-on-insert semantics;
JSON numbers are modelled as exact rationals (the JSON text of a number is
exact; Go reads them back as float64); fallible Go functions return
`Except`/`Option`; I/O outcomes that depend on the environment (disk errors)
are passed in explicitly.
-/

/-- Lookup in a Go map modelled as an association list. -/
def mapGet {α : Type} : List (String × α) → String → Option α
  | [], _ => none
  | (k2, v) :: rest, k => if k2 = k then some v else mapGet rest k

/-- Go map assignment: replace the binding for the key, or append it. -/
def mapSet {α : Type} : List (String × α) → String → α → List (String × α)
  | [], k, v => [(k, v)]
  | (k2, v2) :: rest, k, v =>
    if k2 = k then (k, v) :: rest else (k2, v2) :: mapSet rest k v

/-- Go map deletion: remove the binding for the key. -/
def mapDel {α : Type} (l : List (String × α)) (k : String) : List (String × α) :=
  l.filter (fun kv => decide (kv.1 ≠ k))

/-- Lookup with a default value (reflect field access; Go would panic on a
missing struct field, a case the theorems exclude by hypothesis). -/
def mapGetD {α : Type} (l : List (String × α)) (k : String) (d : α) : α :=
  (mapGet l k).getD d

/-- A dynamic Go `interface` value decoded from JSON
(`map[string]interface{}` entries). -/
inductive JValue where
  | str (s : String)
  | bool (b : Bool)
  | num (q : ℚ)
  | obj (fields : List (String × JValue))
  | null

/-- A typed value stored in a field of a concrete Trigger/Action struct. -/
inductive FieldVal where
  | fstr (s : String)
  | fbool (b : Bool)
  | fint (n : Int)
  | ffloat (q : ℚ)
  | fdur (n : Int)
deriving DecidableEq

/-- Ingredient descriptor (gohome `Ingredient`); `Typ` is the source's `Type`
field, renamed because `Type` is reserved in Lean. -/
structure Ingredient where
  ID : String
  Name : String
  Description : String
  Typ : String
  Required : Bool
  Reference : String := ""
deriving DecidableEq

/-- A concrete Trigger or Action variant: its stable type tag (`Type()`) and
its declared ingredient schema (`Ingredients()`). -/
structure Variant where
  tag : String
  ingredients : List Ingredient
deriving DecidableEq

/-- Go zero value for a struct field of the given ingredient type. -/
def typeZero (t : String) : FieldVal :=
  if t = "string" then .fstr ""
  else if t = "boolean" then .fbool false
  else if t = "integer" then .fint 0
  else if t = "float" then .ffloat 0
  else .fdur 0

/-- Fields of a freshly constructed (`New()`, spec §3: zero-valued) variant
instance: every declared ingredient field at its zero value. -/
def zeroFields (ings : List Ingredient) : List (String × FieldVal) :=
  ings.map (fun ing => (ing.ID, typeZero ing.Typ))

/-- Go conversion `int64(f)` on a float64 holding an exact rational:
truncation toward zero. -/
def ratTrunc (q : ℚ) : Int := Int.tdiv q.num q.den

/-- One iteration of the `setIngredients` loop (part_002 lines 339-394),
split into the validation outcome: `error` aborts the bind, `ok none` leaves
the field untouched (absent optional value, or the unimplemented `datetime`
case), `ok (some fv)` is the value written onto the instance field. -/
def bindOutcome (ingredientValues : List (String × JValue)) (ing : Ingredient) :
    Except String (Option FieldVal) :=
  match mapGet ingredientValues ing.ID with
  | none =>
    if ing.Required then .error "Missing ingredient" else .ok none
  | some v =>
    if ing.Typ = "string" then
      match v with
      | .str s => .ok (some (.fstr s))
      | _ => .error ("Invalid type, " ++ ing.ID ++ " must be a string")
    else if ing.Typ = "boolean" then
      match v with
      | .bool b => .ok (some (.fbool b))
      | _ => .error ("Invalid type, " ++ ing.ID ++ " must be a boolean")
    else if ing.Typ = "integer" then
      match v with
      | .num q => .ok (some (.fint (ratTrunc q)))
      | _ => .error ("Invalid type, " ++ ing.ID ++ " must be an integer")
    else if ing.Typ = "float" then
      match v with
      | .num q => .ok (some (.ffloat q))
      | _ => .error ("Invalid type, " ++ ing.ID ++ " must be a float")
    else if ing.Typ = "duration" then
      match v with
      | .num q => .ok (some (.fdur (ratTrunc q * 1000000)))
      | _ => .error ("Invalid type, " ++ ing.ID ++ " must be an integer")
    else if ing.Typ = "datetime" then
      .ok none
    else
      .error ("Unknown ingredient type: " ++ ing.Typ)

/-- Applying one ingredient's bind outcome to the instance fields. -/
def bindIngredient (ingredientValues : List (String × JValue))
    (fields : List (String × FieldVal)) (ing : Ingredient) :
    Except String (List (String × FieldVal)) :=
  match bindOutcome ingredientValues ing with
  | .error e => .error e
  | .ok none => .ok fields
  | .ok (some fv) => .ok (mapSet fields ing.ID fv)

/-- `setIngredients` (part_002 lines 338-396): validate and copy each declared
ingredient's submitted value onto the instance fields; the first violation
aborts with its error. -/
def setIngredients (ings : List Ingredient)
    (ingredientValues : List (String × JValue))
    (fields : List (String × FieldVal)) :
    Except String (List (String × FieldVal)) :=
  match ings with
  | [] => .ok fields
  | ing :: rest =>
    match bindIngredient ingredientValues fields ing with
    | .error e => .error e
    | .ok f2 => setIngredients rest ingredientValues f2

/-- The error `setIngredients` reports for one ingredient, if any; it depends
only on the submitted values, not on the instance being bound. -/
def bindErr (ingredientValues : List (String × JValue)) (ing : Ingredient) :
    Option String :=
  match bindOutcome ingredientValues ing with
  | .error e => some e
  | .ok _ => none

/-- The binder's per-field type-mismatch message: it names the ingredient ID
and the expected type (part_002 lines 357-384; the `integer` and `duration`
cases both expect a JSON integer). -/
def mismatchMsg (ing : Ingredient) : String :=
  if ing.Typ = "string" then "Invalid type, " ++ ing.ID ++ " must be a string"
  else if ing.Typ = "boolean" then "Invalid type, " ++ ing.ID ++ " must be a boolean"
  else if ing.Typ = "float" then "Invalid type, " ++ ing.ID ++ " must be a float"
  else "Invalid type, " ++ ing.ID ++ " must be an integer"

/-- The ingredient types `setIngredients` can bind (`datetime` is declared but
has no binding logic in the source). -/
def handledType (t : String) : Bool :=
  t == "string" || t == "boolean" || t == "integer" || t == "float" || t == "duration"

/-- Whether a submitted dynamic value passes the binder's type assertion for
the declared ingredient type. -/
def valueTypeOk : String → JValue → Bool
  | "string", .str _ => true
  | "boolean", .bool _ => true
  | "integer", .num _ => true
  | "float", .num _ => true
  | "duration", .num _ => true
  | _, _ => false

/-- Whether a stored field value has the declared ingredient type. -/
def fieldTyped : String → FieldVal → Bool
  | "string", .fstr _ => true
  | "boolean", .fbool _ => true
  | "integer", .fint _ => true
  | "float", .ffloat _ => true
  | "duration", .fdur _ => true
  | _, _ => false

/-- A duration field holds a whole number of milliseconds (the only durations
the binder ever writes, since it multiplies a whole count by a millisecond). -/
def durOk : FieldVal → Bool
  | .fdur n => decide (n % 1000000 = 0)
  | _ => true

/-- One ingredient of an instance is well bound: its type is bindable and the
instance holds a value of the declared type for it. -/
def ingFieldOk (fields : List (String × FieldVal)) (ing : Ingredient) : Bool :=
  handledType ing.Typ &&
    match mapGet fields ing.ID with
    | some fv => fieldTyped ing.Typ fv && durOk fv
    | none => false

/-- An instance's fields are well bound for its declared ingredient schema:
ingredient IDs are distinct and every declared ingredient is well bound. -/
def wellBound (ings : List Ingredient) (fields : List (String × FieldVal)) : Bool :=
  decide (ings.map Ingredient.ID).Nodup && ings.all (ingFieldOk fields)

/-- Modelled from the spec: the concrete Trigger variants are not under src/.
§3 gives the Trigger contract — a stable variant tag with its ingredient
schema, an enabled flag (`Enabled()`/`SetEnabled`), and ingredient-populated
fields. -/
structure TriggerInst where
  variant : Variant
  enabled : Bool
  fields : List (String × FieldVal)
deriving DecidableEq

/-- Modelled from the spec: an Action instance (§3) — its variant plus its
ingredient-populated fields. -/
structure ActionInst where
  variant : Variant
  fields : List (String × FieldVal)
deriving DecidableEq

/-- `Identifiable` (spec §3): common ID/Name/Description base. -/
structure Identifiable where
  ID : String
  Name : String
  Description : String
deriving DecidableEq

/-- `Recipe` (spec §3, the struct fields used by part_002): exactly one
Trigger bound to one Action, plus the Identifiable header. -/
structure Recipe where
  Identifiable : Identifiable
  Trigger : TriggerInst
  Action : ActionInst
deriving DecidableEq

/-- `recipeJSON` (part_002 lines 80-95): the persisted JSON form of a Recipe.
`json.Marshal`/`json.Unmarshal` of the wrapper is modelled as the identity on
the wrapper value, numbers being read back as JSON numbers. -/
structure recipeJSON where
  Identifiable : Identifiable
  Enabled : Bool
  TriggerType : String
  TriggerFields : List (String × JValue)
  ActionType : String
  ActionFields : List (String × JValue)

/-- `RecipeManager` (part_002 lines 21-30) together with the environment its
methods mutate: `files` is the persisted recipe files under `dataPath`
(keyed by path), and `consumers` the broker's registered trigger
subscriptions, identified by the owning Recipe (trigger ownership is
exclusive per spec §3; the broker implementation is not under src/). -/
structure RecipeManager where
  Recipes : List Recipe
  dataPath : String
  triggerFactory : List (String × Variant)
  actionFactory : List (String × Variant)
  files : List (String × recipeJSON)
  consumers : List Recipe

/-- `recipePath` (part_002 lines 224-226). -/
def recipePath (rm : RecipeManager) (r : Recipe) : String :=
  rm.dataPath ++ "/" ++ r.Identifiable.ID ++ ".json"

/-- Go reflect access used by `getIngredientValueMap`: `.Int()` on a field
(int64 and Duration fields; other kinds would panic in Go, excluded by
hypotheses and modelled as 0). -/
def fieldInt : FieldVal → Int
  | .fint n => n
  | .fdur n => n
  | _ => 0

/-- Go reflect access `.Interface()` on a field followed by JSON
serialization: strings and bools as themselves, int64/float64/Duration
fields as JSON numbers. -/
def fieldInterface : FieldVal → JValue
  | .fstr s => .str s
  | .fbool b => .bool b
  | .fint n => .num n
  | .ffloat q => .num q
  | .fdur n => .num n

/-- The serialized value stored for one ingredient (part_002 lines 252-258):
durations are stored as integer milliseconds (Go truncating int64 division by
`time.Millisecond`), every other field as its interface value. -/
def ingredientSavedValue (ing : Ingredient) (fields : List (String × FieldVal)) : JValue :=
  if ing.Typ = "duration" then
    .num (Int.tdiv (fieldInt (mapGetD fields ing.ID (.fint 0))) 1000000)
  else
    fieldInterface (mapGetD fields ing.ID (.fint 0))

/-- `getIngredientValueMap` (part_002 lines 249-262). -/
def getIngredientValueMap (ings : List Ingredient)
    (fields : List (String × FieldVal)) : List (String × JValue) :=
  ings.foldl (fun values ing => mapSet values ing.ID (ingredientSavedValue ing fields)) []

/-- The `recipeJSON` value `SaveRecipe` marshals (part_002 lines 200-206). -/
def serializeRecipe (r : Recipe) : recipeJSON :=
  { Identifiable := r.Identifiable
    Enabled := r.Trigger.enabled
    TriggerType := r.Trigger.variant.tag
    TriggerFields := getIngredientValueMap r.Trigger.variant.ingredients r.Trigger.fields
    ActionType := r.Action.variant.tag
    ActionFields := getIngredientValueMap r.Action.variant.ingredients r.Action.fields }

/-- `SaveRecipe` (part_002 lines 196-222). `json.Marshal` and
`ioutil.WriteFile` can fail for environmental reasons outside this model;
their outcomes are passed in as `marshalErr`/`writeErr`. Returns the updated
state and the returned error. -/
def SaveRecipe (rm : RecipeManager) (r : Recipe) (appendTo : Bool)
    (marshalErr writeErr : Option String) : RecipeManager × Option String :=
  match marshalErr with
  | some e => (rm, some e)
  | none =>
    match writeErr with
    | some e => (rm, some e)
    | none =>
      ({ rm with
          files := mapSet rm.files (recipePath rm r) (serializeRecipe r)
          Recipes := if appendTo then rm.Recipes ++ [r] else rm.Recipes }, none)

/-- `makeTrigger` (part_002 lines 318-326): construct a fresh variant instance
from the factory and bind the stored values onto it.  A type tag absent from
the factory would call a nil function and panic in Go; that case is `none`. -/
def makeTrigger (rm : RecipeManager) (triggerID : String)
    (triggerIngredients : List (String × JValue)) : Option (Except String TriggerInst) :=
  match mapGet rm.triggerFactory triggerID with
  | none => none
  | some v =>
    some (match setIngredients v.ingredients triggerIngredients (zeroFields v.ingredients) with
      | .error e => .error e
      | .ok f => .ok { variant := v, enabled := false, fields := f })

/-- `makeAction` (part_002 lines 328-336). -/
def makeAction (rm : RecipeManager) (actionID : String)
    (actionIngredients : List (String × JValue)) : Option (Except String ActionInst) :=
  match mapGet rm.actionFactory actionID with
  | none => none
  | some v =>
    some (match setIngredients v.ingredients actionIngredients (zeroFields v.ingredients) with
      | .error e => .error e
      | .ok f => .ok { variant := v, fields := f })

/-- `loadRecipe` (part_002 lines 286-316), after the file has been read and
unmarshalled into its `recipeJSON` wrapper: rebuild the trigger (restoring
the persisted enabled flag via `SetEnabled`) and the action. -/
def loadRecipe (rm : RecipeManager) (w : recipeJSON) : Option (Except String Recipe) :=
  match makeTrigger rm w.TriggerType w.TriggerFields with
  | none => none
  | some (.error e) => some (.error e)
  | some (.ok t) =>
    match makeAction rm w.ActionType w.ActionFields with
    | none => none
    | some (.error e) => some (.error e)
    | some (.ok a) =>
      some (.ok { Identifiable := w.Identifiable
                  Trigger := { t with enabled := w.Enabled }
                  Action := a })

/-- `os.Remove` on a recipe file: removes it, or fails with the not-found
error when it does not exist. -/
def osRemove (files : List (String × recipeJSON)) (p : String) :
    Except String (List (String × recipeJSON)) :=
  match mapGet files p with
  | none => .error ("remove " ++ p ++ ": no such file or directory")
  | some _ => .ok (mapDel files p)

/-- The in-memory removal loop of `DeleteRecipe` (part_002 lines 237-243):
drop the first Recipe whose ID matches, then stop. -/
def removeFirstByID : List Recipe → String → List Recipe
  | [], _ => []
  | r :: rest, id =>
    if r.Identifiable.ID = id then rest else r :: removeFirstByID rest id

/-- `UnregisterAndStop` (part_002 lines 56-59).  Modelled from the spec: the
broker implementation is not under src/; §4.1 `RemoveConsumer` and §2/§4.2
`Stop()` both unsubscribe the recipe's trigger, and §5 requires no further
invocations after `Stop()` returns, so the subscription is removed. -/
def UnregisterAndStop (consumers : List Recipe) (r : Recipe) : List Recipe :=
  consumers.filter (fun c => decide (c ≠ r))

/-- `DeleteRecipe` (part_002 lines 228-247): remove the persisted file —
failing, with the manager untouched, if it does not exist — then drop the
first ID-matching Recipe from the list, then unregister and stop the
trigger.  Returns the final state and the returned error. -/
def DeleteRecipe (rm : RecipeManager) (r : Recipe) : RecipeManager × Option String :=
  match osRemove rm.files (recipePath rm r) with
  | .error e => (rm, some e)
  | .ok files2 =>
    ({ rm with
        files := files2
        Recipes := removeFirstByID rm.Recipes r.Identifiable.ID
        consumers := UnregisterAndStop rm.consumers r }, none)

/-- gohome `Event` (part_002 line 516): its string payload; the device
reference plays no role in the claims. -/
structure Event where
  StringValue : String

/-- Modelled from the spec: broker fan-out (§4.1) — an Event is delivered to
every registered consumer whose interest predicate accepts it, and a firing
trigger invokes its owning Recipe's Action (§2, §4.2).  `fires r e` is the
trigger's variant-specific match predicate (not under src/), universally
quantified in the theorems. -/
def invokedRecipes (consumers : List Recipe) (fires : Recipe → Event → Bool)
    (e : Event) : List Recipe :=
  consumers.filter (fun r => fires r e)

/-- `EnableRecipe` (part_002 lines 70-78): success with no write when the
requested state equals the current one; otherwise `SetEnabled` then persist
via `SaveRecipe`.  Returns the final state, the (possibly updated) recipe and
the returned error. -/
def EnableRecipe (rm : RecipeManager) (r : Recipe) (enabled : Bool)
    (marshalErr writeErr : Option String) : RecipeManager × Recipe × Option String :=
  if r.Trigger.enabled = enabled then (rm, r, none)
  else
    let r2 : Recipe := { r with Trigger := { r.Trigger with enabled := enabled } }
    let res := SaveRecipe rm r2 false marshalErr writeErr
    (res.1, r2, res.2)

/-- Go type assertion `.(string)` on a dynamic value. -/
def asString : JValue → Option String
  | .str s => some s
  | _ => none

/-- Go type assertion to a string-keyed object on a dynamic value. -/
def asObj : JValue → Option (List (String × JValue))
  | .obj o => some o
  | _ => none

/-- Modelled from the spec: `NewRecipe` is not under src/.  §4.3: on success
`UnmarshalNewRecipe` "constructs and returns a new enabled Recipe" (the
enabled state lives on the Trigger, as `EnableRecipe` shows); §3: the ID is
assigned on registration, so it is empty here.  Construction is modelled as
always succeeding. -/
def NewRecipe (name desc : String) (enabled : Bool) (t : TriggerInst)
    (a : ActionInst) : Except String Recipe :=
  .ok { Identifiable := { ID := "", Name := name, Description := desc }
        Trigger := { t with enabled := enabled }
        Action := a }

/-- `UnmarshalNewRecipe` (part_002 lines 97-194): fail-fast validation of the
submitted field map in source order, then construct and bind the trigger and
the action, then `NewRecipe` with `enabled = true`. -/
def UnmarshalNewRecipe (rm : RecipeManager) (data : List (String × JValue)) :
    Except String Recipe :=
  match mapGet data "name" with
  | none => .error "Missing name key"
  | some nameV =>
  match asString nameV with
  | none => .error "Invalid value for name, must be a string"
  | some name =>
  match mapGet data "description" with
  | none => .error "Missing description key"
  | some descV =>
  match asString descV with
  | none => .error "Invalid value for description, must be a string"
  | some desc =>
  match mapGet data "trigger" with
  | none => .error "Missing trigger key"
  | some trigV =>
  match asObj trigV with
  | none => .error "Invalid value for trigger, must be an object"
  | some triggerData =>
  match mapGet triggerData "id" with
  | none => .error "Missing id key in trigger object"
  | some tidV =>
  match asString tidV with
  | none => .error "Invalid value, trigger.id must be a string"
  | some triggerID =>
  match mapGet triggerData "ingredients" with
  | none => .error "Missing trigger.ingredients key"
  | some tingV =>
  match asObj tingV with
  | none => .error "Invalid value for trigger.ingredients, must be an object"
  | some triggerIngredients =>
  match mapGet rm.triggerFactory triggerID with
  | none => .error ("Invalid trigger ID: " ++ triggerID)
  | some tv =>
  match mapGet data "action" with
  | none => .error "Missing action key"
  | some actV =>
  match asObj actV with
  | none => .error "Invalid value for action, must be an object"
  | some actionData =>
  match mapGet actionData "id" with
  | none => .error "Missing id key in action object"
  | some aidV =>
  match asString aidV with
  | none => .error "Invalid value, action.id must be a string"
  | some actionID =>
  match mapGet actionData "ingredients" with
  | none => .error "Missing action.ingredients key"
  | some aingV =>
  match asObj aingV with
  | none => .error "Invalid value for action.ingredients, must be an object"
  | some actionIngredients =>
  match mapGet rm.actionFactory actionID with
  | none => .error ("Invalid action ID: " ++ actionID)
  | some av =>
  match setIngredients tv.ingredients triggerIngredients (zeroFields tv.ingredients) with
  | .error e => .error e
  | .ok tfs =>
  match setIngredients av.ingredients actionIngredients (zeroFields av.ingredients) with
  | .error e => .error e
  | .ok afs =>
  NewRecipe name desc true { variant := tv, enabled := false, fields := tfs }
    { variant := av, fields := afs }

/-- An attribute value (pkg/attr); its internals play no role in the claims. -/
structure Attribute where
  Name : String
  Value : String
deriving DecidableEq

/-- The bus events the suppression filter inspects: `FeatureReportingEvt`
(feature ID plus the attribute map) and every other event kind. -/
inductive BusEvent where
  | featureReporting (featureID : String) (attrs : List (String × Attribute))
  | other (tag : String)
deriving DecidableEq

/-- The featureID a bus event is for, if any. -/
def eventFeatureID : BusEvent → Option String
  | .featureReporting fid _ => some fid
  | .other _ => none

/-- Modelled from the spec: the event bus is an external collaborator whose
contract is §4.1.  `filters` holds the active enqueue filters (featureID,
predicate, remaining delay); `delivered` the events that passed them. -/
structure EvtBus where
  filters : List (String × (BusEvent → Bool) × Int)
  delivered : List BusEvent

/-- Modelled from the spec: `RemoveEnqueueFilter` (§4.1) drops the filter
registered for the featureID. -/
def RemoveEnqueueFilter (bus : EvtBus) (featureID : String) : EvtBus :=
  { bus with filters := bus.filters.filter (fun f => decide (f.1 ≠ featureID)) }

/-- Modelled from the spec: `AddEnqueueFilter` (§3, §4.1) installs a filter
for the featureID, replacing any existing filter for the same featureID. -/
def AddEnqueueFilter (bus : EvtBus) (featureID : String) (p : BusEvent → Bool)
    (ttl : Int) : EvtBus :=
  { bus with filters :=
      (featureID, p, ttl) :: bus.filters.filter (fun f => decide (f.1 ≠ featureID)) }

/-- Modelled from the spec: `Enqueue` (§4.1) silently drops the event if any
active filter whose featureID matches the event has a predicate accepting
it; otherwise the event is delivered. -/
def Enqueue (bus : EvtBus) (e : BusEvent) : EvtBus :=
  if bus.filters.any (fun f => decide (some f.1 = eventFeatureID e) && f.2.1 e) then
    bus
  else
    { bus with delivered := bus.delivered ++ [e] }

/-- The enqueue-filter predicate `SupressFeatureReporting` installs
(extensions.go lines 225-235): true exactly for `FeatureReportingEvt` events
carrying the suppressed featureID. -/
def supressPredicate (featureID : String) : BusEvent → Bool := fun e =>
  match e with
  | .featureReporting fid _ => decide (fid = featureID)
  | .other _ => false

/-- `SupressFeatureReporting` (pkg/gohome/extensions.go lines 208-238):
remove any existing filter for the feature, replay the just-set values as a
synthetic reporting event when attributes are given, then install the
suppression filter for `delay`. -/
def SupressFeatureReporting (bus : EvtBus) (featureID : String)
    (attrs : Option (List (String × Attribute))) (delay : Int) : EvtBus :=
  let b1 := RemoveEnqueueFilter bus featureID
  let b2 := match attrs with
    | some a => Enqueue b1 (.featureReporting featureID a)
    | none => b1
  AddEnqueueFilter b2 featureID (supressPredicate featureID) delay

namespace validation

/-- `validation.Error` (part_000 lines 13-20). -/
structure Error where
  MSG : String
  Field : String
deriving DecidableEq

/-- `validation.Errors` (part_000 lines 28-30). -/
structure Errors where
  Errors : List Error
deriving DecidableEq

/-- `Errors.Add` (part_000 lines 33-38). -/
def Errors.Add (errs : validation.Errors) (msg field : String) : validation.Errors :=
  { Errors := errs.Errors ++ [{ MSG := msg, Field := field }] }

/-- `Errors.Has` (part_000 lines 41-43). -/
def Errors.Has (errs : validation.Errors) : Bool :=
  decide (0 < errs.Errors.length)

/-- `validation.ErrorJSON` (part_000 lines 60-62): the single `errors` field
maps each failed field to an object with a `message` key. -/
structure ErrorJSON where
  Errors : List (String × List (String × String))

/-- Go `strings.Split` on a one-character separator, modelled structurally
over the string's characters (`String.splitOn` does not reduce in the
kernel). -/
def splitChars (sep : Char) : List Char → List (List Char)
  | [] => [[]]
  | c :: rest =>
    let r := splitChars sep rest
    if c = sep then [] :: r
    else
      match r with
      | [] => [[c]]
      | g :: gs => (c :: g) :: gs

/-- Go `strings.Split(s, sep)` for a one-character separator. -/
def goSplit (s : String) (sep : Char) : List String :=
  (splitChars sep s.toList).map (fun cs => String.mk cs)

/-- Go `strings.Replace(s, old, "", -1)` for a one-character `old`: drop
every occurrence of the character. -/
def removeChar (s : String) (c : Char) : String :=
  String.mk (s.toList.filter (fun c2 => decide (c2 ≠ c)))

/-- `JSONTagForField` (part_000 lines 86-97).  The item's Go type is
modelled by its field list (field name, raw struct tag); the tag is split on
the colon and the quotes are removed from the value part. -/
def JSONTagForField (s : List (String × String)) (name : String) :
    Except String String :=
  match mapGet s name with
  | none => .error ("invalid field: " ++ name)
  | some tag =>
    match goSplit tag ':' with
    | [_, p] => .ok (removeChar p '\"')
    | _ => .error "unexpected tag format"

/-- `NewErrorJSON` (part_000 lines 66-81): populate the uniform
validation-error object; an error whose field has no resolvable json tag is
skipped. -/
def NewErrorJSON (item : List (String × String)) (clientID : String)
    (errors : validation.Errors) : ErrorJSON :=
  { Errors := errors.Errors.foldl (fun acc e =>
      match JSONTagForField item e.Field with
      | .error _ => acc
      | .ok jsonField =>
        mapSet acc (clientID ++ "." ++ jsonField) [("message", e.MSG)]) [] }

/-- The persisted-error keys `NewErrorJSON` resolves, in order. -/
def resolvedKeys (item : List (String × String)) (clientID : String)
    (errs : validation.Errors) : List String :=
  errs.Errors.filterMap (fun e =>
    match JSONTagForField item e.Field with
    | .error _ => none
    | .ok jsonField => some (clientID ++ "." ++ jsonField))

end validation

/-- `zone.Zone` (external package), restricted to the identity fields the
device claims touch. -/
structure Zone where
  ID : String
  Name : String
  Address : String
deriving DecidableEq

/-- `Button`, restricted to the identity fields the device claims touch. -/
structure Button where
  ID : String
  Name : String
  Address : String
deriving DecidableEq

/-- `Sensor`, restricted to the identity fields the device claims touch. -/
structure Sensor where
  ID : String
  Name : String
  Address : String
deriving DecidableEq

/-- A child device, modelled by its identity fields (the Add operations only
consult `Address`; the claims do not recurse into grandchildren). -/
structure ChildDevice where
  ID : String
  Name : String
  Address : String
deriving DecidableEq

/-- `Device` (part_003 lines 43-98), restricted to the fields the claims
touch: the address-keyed child collections. -/
structure Device where
  ID : String
  Name : String
  Address : String
  Buttons : List (String × Button)
  Devices : List (String × ChildDevice)
  Zones : List (String × Zone)
  Sensors : List (String × Sensor)
deriving DecidableEq

/-- `Device.AddZone` (part_003 lines 162-173): reject a duplicate zone
address with a validation error on the `Address` field, else add. -/
def Device.AddZone (d : Device) (z : Zone) : Device × Option validation.Errors :=
  match mapGet d.Zones z.Address with
  | some _ =>
    (d, some ((validation.Errors.mk []).Add
      ("device already has a zone with the same address [" ++ z.Address ++ "], must be unique")
      "Address"))
  | none => ({ d with Zones := mapSet d.Zones z.Address z }, none)

/-- `Device.AddButton` (part_003 lines 176-182). -/
def Device.AddButton (d : Device) (b : Button) : Device × Option String :=
  match mapGet d.Buttons b.Address with
  | some _ =>
    (d, some ("button with address: " ++ b.Address ++ " already added to parent device"))
  | none => ({ d with Buttons := mapSet d.Buttons b.Address b }, none)

/-- `Device.AddDevice` (part_003 lines 185-191). -/
def Device.AddDevice (d : Device) (cd : ChildDevice) : Device × Option String :=
  match mapGet d.Devices cd.Address with
  | some _ =>
    (d, some ("device with address: " ++ cd.Address ++ " already added to parent device"))
  | none => ({ d with Devices := mapSet d.Devices cd.Address cd }, none)

/-- `Device.AddSensor` (part_003 lines 194-200). -/
def Device.AddSensor (d : Device) (s : Sensor) : Device × Option String :=
  match mapGet d.Sensors s.Address with
  | some _ =>
    (d, some ("sensor with address: " ++ s.Address ++ " already added to device"))
  | none => ({ d with Sensors := mapSet d.Sensors s.Address s }, none)

/-- Sample trigger variant (a time trigger with a string and a duration
ingredient), used by concrete evaluations. -/
def sampleTriggerVariant : Variant :=
  { tag := "gohome.TimeTrigger"
    ingredients := [
      { ID := "Time", Name := "Time", Description := "", Typ := "string", Required := true },
      { ID := "Interval", Name := "Interval", Description := "", Typ := "duration", Required := true }] }

/-- Sample action variant (`ZoneSetLevelAction`, part_001 lines 26-44). -/
def sampleActionVariant : Variant :=
  { tag := "gohome.ZoneSetLevelAction"
    ingredients := [
      { ID := "Level", Name := "Intensity Level", Description := "The target intensity for the zone",
        Typ := "float", Required := true },
      { ID := "ZoneID", Name := "Zone ID", Description := "The ID of the target zone",
        Typ := "string", Required := true, Reference := "zone" }] }

/-- Sample bound trigger instance (enabled, 5000 ms interval). -/
def sampleTrigger : TriggerInst :=
  { variant := sampleTriggerVariant
    enabled := true
    fields := [("Time", .fstr "20:00"), ("Interval", .fdur 5000000000)] }

/-- Sample bound action instance. -/
def sampleAction : ActionInst :=
  { variant := sampleActionVariant
    fields := [("Level", .ffloat 75), ("ZoneID", .fstr "z1")] }

/-- Sample recipe. -/
def sampleRecipe : Recipe :=
  { Identifiable := { ID := "r1", Name := "Evening Lights", Description := "demo" }
    Trigger := sampleTrigger
    Action := sampleAction }

/-- Sample manager holding the sample recipe, with no persisted files yet. -/
def sampleManager : RecipeManager :=
  { Recipes := [sampleRecipe]
    dataPath := "data"
    triggerFactory := [("gohome.TimeTrigger", sampleTriggerVariant)]
    actionFactory := [("gohome.ZoneSetLevelAction", sampleActionVariant)]
    files := []
    consumers := [sampleRecipe] }

/-- The sample manager after persisting the sample recipe. -/
def sampleManagerSaved : RecipeManager :=
  (SaveRecipe sampleManager sampleRecipe false none none).1

/-- Sample device owning one zone. -/
def sampleDevice : Device :=
  { ID := "d1", Name := "dev", Address := "192.168.0.9:23"
    Buttons := [], Devices := []
    Zones := [("z1addr", { ID := "z1", Name := "Zone 1", Address := "z1addr" })]
    Sensors := [] }

/-- Sample empty event bus. -/
def sampleBus : EvtBus := { filters := [], delivered := [] }

/-- Sample well-formed recipe submission for the sample factories. -/
def sampleSubmission : List (String × JValue) :=
  [("name", .str "Evening Lights"),
   ("description", .str "demo"),
   ("trigger", .obj [("id", .str "gohome.TimeTrigger"),
     ("ingredients", .obj [("Time", .str "20:00"), ("Interval", .num 5000)])]),
   ("action", .obj [("id", .str "gohome.ZoneSetLevelAction"),
     ("ingredients", .obj [("Level", .num 75), ("ZoneID", .str "z1")])])]

/-! Helper lemmas about the map model and the bus. -/

theorem mapGet_mapSet_self {α : Type} (l : List (String × α)) (k : String) (v : α) :
    mapGet (mapSet l k v) k = some v := by
  induction l with
  | nil => simp [mapSet, mapGet]
  | cons kv rest ih =>
    obtain ⟨k2, v2⟩ := kv
    by_cases h : k2 = k
    · simp [mapSet, h, mapGet]
    · simp [mapSet, h, mapGet, ih]

theorem mapGet_mapSet_ne {α : Type} (l : List (String × α)) (k k' : String) (v : α)
    (h : k' ≠ k) : mapGet (mapSet l k v) k' = mapGet l k' := by
  induction l with
  | nil => simp [mapSet, mapGet, Ne.symm h]
  | cons kv rest ih =>
    obtain ⟨k2, v2⟩ := kv
    by_cases h2 : k2 = k
    · subst h2
      simp [mapSet, mapGet, Ne.symm h]
    · simp [mapSet, h2, mapGet, ih]

theorem mapGet_mapDel_self {α : Type} (l : List (String × α)) (k : String) :
    mapGet (mapDel l k) k = none := by
  induction l with
  | nil => rfl
  | cons kv rest ih =>
    obtain ⟨k2, v2⟩ := kv
    by_cases h : k2 = k
    · simpa [mapDel, List.filter_cons, h] using ih
    · simpa [mapDel, List.filter_cons, h, mapGet] using ih

theorem not_mem_filter_ne {α : Type} [DecidableEq α] (l : List α) (r : α) :
    r ∉ l.filter (fun c => decide (c ≠ r)) := by
  simp [List.mem_filter]

theorem Enqueue_filters (b : EvtBus) (e : BusEvent) : (Enqueue b e).filters = b.filters := by
  unfold Enqueue
  split <;> rfl

/-- C7: calling DeleteRecipe for a Recipe whose ID has no persisted file
fails with a not-found error and returns the manager state unchanged — the
in-memory Recipe list and the broker registrations are untouched, because
the file removal comes first and its failure returns immediately. -/
theorem DeleteRecipe_missing_file_not_found (rm : RecipeManager) (r : Recipe)
    (h : mapGet rm.files (recipePath rm r) = none) :
    DeleteRecipe rm r =
      (rm, some ("remove " ++ recipePath rm r ++ ": no such file or directory")) := by
  simp [DeleteRecipe, osRemove, h]

/-- Witness for C7 at the sample manager, which has no persisted files. -/
theorem DeleteRecipe_missing_file_not_found_witness :
    mapGet sampleManager.files (recipePath sampleManager sampleRecipe) = none ∧
    DeleteRecipe sampleManager sampleRecipe =
      (sampleManager,
        some ("remove " ++ recipePath sampleManager sampleRecipe ++ ": no such file or directory")) :=
  ⟨rfl, DeleteRecipe_missing_file_not_found sampleManager sampleRecipe rfl⟩

/-- C6: EnableRecipe with the current enabled state succeeds as a pure no-op
(no persistence write, no state change); with a different state it sets the
new enabled state and persists the Recipe. -/
theorem EnableRecipe_noop_or_persist (rm : RecipeManager) (r : Recipe)
    (enabled : Bool) (marshalErr writeErr : Option String) :
    (r.Trigger.enabled = enabled →
      EnableRecipe rm r enabled marshalErr writeErr = (rm, r, none)) ∧
    (r.Trigger.enabled ≠ enabled → marshalErr = none → writeErr = none →
      ∃ rm2 r2, EnableRecipe rm r enabled marshalErr writeErr = (rm2, r2, none) ∧
        r2.Trigger.enabled = enabled ∧
        r2.Identifiable = r.Identifiable ∧
        mapGet rm2.files (recipePath rm r) = some (serializeRecipe r2) ∧
        rm2.Recipes = rm.Recipes) := by
  constructor
  · intro h
    simp [EnableRecipe, h]
  · intro h hm hw
    subst hm; subst hw
    exact
      let r2 : Recipe := { r with Trigger := { r.Trigger with enabled := enabled } }
      ⟨{ rm with files := mapSet rm.files (recipePath rm r2) (serializeRecipe r2) }, r2,
        by simp [EnableRecipe, h, SaveRecipe], rfl, rfl,
        mapGet_mapSet_self rm.files _ _, rfl⟩

/-- Witness for C6 at the sample recipe, whose trigger is enabled. -/
theorem EnableRecipe_noop_or_persist_witness :
    sampleRecipe.Trigger.enabled = true ∧
    EnableRecipe sampleManager sampleRecipe true none none =
      (sampleManager, sampleRecipe, none) :=
  ⟨rfl, (EnableRecipe_noop_or_persist sampleManager sampleRecipe true none none).1 rfl⟩

/-- C10: SaveRecipe with appendTo, when serialization or the file write
fails, returns the error with the manager (in particular the in-memory
Recipe list) unchanged; the Recipe is appended only after the file write
succeeded. -/
theorem SaveRecipe_appends_only_after_write (rm : RecipeManager) (r : Recipe)
    (marshalErr writeErr : Option String) :
    ((marshalErr ≠ none ∨ writeErr ≠ none) →
      ∃ e, SaveRecipe rm r true marshalErr writeErr = (rm, some e)) ∧
    SaveRecipe rm r true none none =
      ({ rm with
          files := mapSet rm.files (recipePath rm r) (serializeRecipe r)
          Recipes := rm.Recipes ++ [r] }, none) := by
  constructor
  · intro h
    match marshalErr with
    | some e => exact ⟨e, rfl⟩
    | none =>
      match writeErr with
      | some e => exact ⟨e, rfl⟩
      | none => simp at h
  · rfl

/-- Witness for C10: a failing write at the sample recipe. -/
theorem SaveRecipe_appends_only_after_write_witness :
    ((some "boom" : Option String) ≠ none ∨ (none : Option String) ≠ none) ∧
    ∃ e, SaveRecipe sampleManager sampleRecipe true (some "boom") none =
      (sampleManager, some e) :=
  ⟨Or.inl (by simp),
    (SaveRecipe_appends_only_after_write sampleManager sampleRecipe (some "boom") none).1
      (Or.inl (by simp))⟩

/-- C8: adding a child zone, button, device or sensor whose address collides
with an existing child of the same kind returns a descriptive error and
leaves that collection (indeed the whole device) unchanged; a fresh address
is added to the collection. -/
theorem Device_add_child_duplicate_address (d : Device) :
    (∀ z : Zone, (mapGet d.Zones z.Address).isSome = true →
      Device.AddZone d z = (d, some { Errors := [{
        MSG := "device already has a zone with the same address [" ++ z.Address ++ "], must be unique",
        Field := "Address" }] })) ∧
    (∀ z : Zone, mapGet d.Zones z.Address = none →
      Device.AddZone d z = ({ d with Zones := mapSet d.Zones z.Address z }, none)) ∧
    (∀ b : Button, (mapGet d.Buttons b.Address).isSome = true →
      Device.AddButton d b =
        (d, some ("button with address: " ++ b.Address ++ " already added to parent device"))) ∧
    (∀ b : Button, mapGet d.Buttons b.Address = none →
      Device.AddButton d b = ({ d with Buttons := mapSet d.Buttons b.Address b }, none)) ∧
    (∀ cd : ChildDevice, (mapGet d.Devices cd.Address).isSome = true →
      Device.AddDevice d cd =
        (d, some ("device with address: " ++ cd.Address ++ " already added to parent device"))) ∧
    (∀ cd : ChildDevice, mapGet d.Devices cd.Address = none →
      Device.AddDevice d cd = ({ d with Devices := mapSet d.Devices cd.Address cd }, none)) ∧
    (∀ s : Sensor, (mapGet d.Sensors s.Address).isSome = true →
      Device.AddSensor d s =
        (d, some ("sensor with address: " ++ s.Address ++ " already added to device"))) ∧
    (∀ s : Sensor, mapGet d.Sensors s.Address = none →
      Device.AddSensor d s = ({ d with Sensors := mapSet d.Sensors s.Address s }, none)) := by
  refine ⟨?_, ?_, ?_, ?_, ?_, ?_, ?_, ?_⟩
  · intro z hz
    obtain ⟨w, hw⟩ := Option.isSome_iff_exists.mp hz
    simp [Device.AddZone, hw, validation.Errors.Add]
  · intro z hz
    simp [Device.AddZone, hz]
  · intro b hb
    obtain ⟨w, hw⟩ := Option.isSome_iff_exists.mp hb
    simp [Device.AddButton, hw]
  · intro b hb
    simp [Device.AddButton, hb]
  · intro cd hcd
    obtain ⟨w, hw⟩ := Option.isSome_iff_exists.mp hcd
    simp [Device.AddDevice, hw]
  · intro cd hcd
    simp [Device.AddDevice, hcd]
  · intro s hs
    obtain ⟨w, hw⟩ := Option.isSome_iff_exists.mp hs
    simp [Device.AddSensor, hw]
  · intro s hs
    simp [Device.AddSensor, hs]

/-- Witness for C8: the sample device rejects a zone re-using the existing
zone address. -/
theorem Device_add_child_duplicate_address_witness :
    (mapGet sampleDevice.Zones "z1addr").isSome = true ∧
    Device.AddZone sampleDevice { ID := "z9", Name := "Zone 9", Address := "z1addr" } =
      (sampleDevice, some { Errors := [{
        MSG := "device already has a zone with the same address [z1addr], must be unique",
        Field := "Address" }] }) := by
  refine ⟨rfl, ?_⟩
  have h := (Device_add_child_duplicate_address sampleDevice).1
    { ID := "z9", Name := "Zone 9", Address := "z1addr" } rfl
  simpa using h

/-- C2: for a registered Recipe with a persisted file, DeleteRecipe succeeds,
removes the persisted file, removes the Recipe from the in-memory list by ID
match, unregisters and stops its trigger, and afterwards no Event — whatever
the trigger's former firing condition — invokes the deleted recipe's
action. -/
theorem DeleteRecipe_success_no_stale_subscription (rm : RecipeManager) (r : Recipe)
    (h : (mapGet rm.files (recipePath rm r)).isSome = true) :
    (DeleteRecipe rm r).2 = none ∧
    mapGet (DeleteRecipe rm r).1.files (recipePath rm r) = none ∧
    (DeleteRecipe rm r).1.Recipes = removeFirstByID rm.Recipes r.Identifiable.ID ∧
    r ∉ (DeleteRecipe rm r).1.consumers ∧
    ∀ (fires : Recipe → Event → Bool) (e : Event),
      r ∉ invokedRecipes (DeleteRecipe rm r).1.consumers fires e := by
  obtain ⟨w, hw⟩ := Option.isSome_iff_exists.mp h
  have hdel : DeleteRecipe rm r =
      ({ rm with
          files := mapDel rm.files (recipePath rm r)
          Recipes := removeFirstByID rm.Recipes r.Identifiable.ID
          consumers := UnregisterAndStop rm.consumers r }, none) := by
    simp [DeleteRecipe, osRemove, hw]
  have hcons : r ∉ UnregisterAndStop rm.consumers r :=
    not_mem_filter_ne rm.consumers r
  refine ⟨by simp [hdel], by simp [hdel, mapGet_mapDel_self], by simp [hdel], by simpa [hdel],
    ?_⟩
  intro fires e hmem
  rw [hdel] at hmem
  exact hcons (List.mem_filter.mp hmem).1

/-- Witness for C2 at the sample manager with the sample recipe persisted. -/
theorem DeleteRecipe_success_no_stale_subscription_witness :
    (mapGet sampleManagerSaved.files (recipePath sampleManagerSaved sampleRecipe)).isSome = true ∧
    ((DeleteRecipe sampleManagerSaved sampleRecipe).2 = none ∧
      mapGet (DeleteRecipe sampleManagerSaved sampleRecipe).1.files
        (recipePath sampleManagerSaved sampleRecipe) = none ∧
      (DeleteRecipe sampleManagerSaved sampleRecipe).1.Recipes =
        removeFirstByID sampleManagerSaved.Recipes sampleRecipe.Identifiable.ID ∧
      sampleRecipe ∉ (DeleteRecipe sampleManagerSaved sampleRecipe).1.consumers ∧
      ∀ (fires : Recipe → Event → Bool) (e : Event),
        sampleRecipe ∉ invokedRecipes (DeleteRecipe sampleManagerSaved sampleRecipe).1.consumers fires e) :=
  ⟨rfl, DeleteRecipe_success_no_stale_subscription sampleManagerSaved sampleRecipe rfl⟩

/-- C5: SupressFeatureReporting first removes any existing enqueue filter
for the feature (leaving exactly the newly installed filter for that
featureID), then — when attributes are non-nil — enqueues a synthetic
FeatureReportingEvt replaying the just-set values, which is delivered, and
only then installs the filter, whose predicate is true exactly for
FeatureReportingEvt events with that feature ID and which drops such events
from then on (replay before suppress). -/
theorem SupressFeatureReporting_replay_then_suppress (bus : EvtBus)
    (featureID : String) (attrs : Option (List (String × Attribute))) (delay : Int) :
    (SupressFeatureReporting bus featureID attrs delay).filters =
      (featureID, supressPredicate featureID, delay) ::
        bus.filters.filter (fun f => decide (f.1 ≠ featureID)) ∧
    (∀ e, supressPredicate featureID e = true ↔
      ∃ a, e = BusEvent.featureReporting featureID a) ∧
    (∀ a, attrs = some a →
      (SupressFeatureReporting bus featureID attrs delay).delivered =
        bus.delivered ++ [BusEvent.featureReporting featureID a]) ∧
    (attrs = none →
      (SupressFeatureReporting bus featureID attrs delay).delivered = bus.delivered) ∧
    (∀ a, Enqueue (SupressFeatureReporting bus featureID attrs delay)
        (BusEvent.featureReporting featureID a) =
      SupressFeatureReporting bus featureID attrs delay) := by
  have hfilters : (SupressFeatureReporting bus featureID attrs delay).filters =
      (featureID, supressPredicate featureID, delay) ::
        bus.filters.filter (fun f => decide (f.1 ≠ featureID)) := by
    cases attrs with
    | none =>
      simp [SupressFeatureReporting, AddEnqueueFilter, RemoveEnqueueFilter,
        List.filter_filter]
    | some a =>
      simp [SupressFeatureReporting, AddEnqueueFilter, Enqueue_filters,
        RemoveEnqueueFilter, List.filter_filter]
  refine ⟨hfilters, ?_, ?_, ?_, ?_⟩
  · intro e
    cases e with
    | featureReporting fid a =>
      simp only [supressPredicate, decide_eq_true_eq]
      constructor
      · intro hfid
        exact ⟨a, by rw [hfid]⟩
      · rintro ⟨a2, ha⟩
        cases ha
        rfl
    | other tag =>
      simp [supressPredicate]
  · intro a ha
    subst ha
    simp only [SupressFeatureReporting, AddEnqueueFilter, RemoveEnqueueFilter, Enqueue]
    have hno : ((bus.filters.filter (fun f => decide (f.1 ≠ featureID))).any
        (fun f => decide (some f.1 = eventFeatureID (BusEvent.featureReporting featureID a))
          && f.2.1 (BusEvent.featureReporting featureID a))) = false := by
      rw [List.any_eq_false]
      intro f hf
      have hne : f.1 ≠ featureID := by
        have := (List.mem_filter.mp hf).2
        simpa using this
      simp [eventFeatureID, hne]
    rw [hno]
    simp
  · intro ha
    subst ha
    simp [SupressFeatureReporting, AddEnqueueFilter, RemoveEnqueueFilter]
  · intro a
    have hmatch : ((SupressFeatureReporting bus featureID attrs delay).filters.any
        (fun f => decide (some f.1 = eventFeatureID (BusEvent.featureReporting featureID a))
          && f.2.1 (BusEvent.featureReporting featureID a))) = true := by
      rw [hfilters]
      simp [eventFeatureID, supressPredicate]
    simp [Enqueue, hmatch]

/-- Witness for C5: on an empty bus with one attribute map, the replay event
is delivered. -/
theorem SupressFeatureReporting_replay_then_suppress_witness :
    (some ([] : List (String × Attribute)) = some []) ∧
    (SupressFeatureReporting sampleBus "f1" (some []) 5).delivered =
      sampleBus.delivered ++ [BusEvent.featureReporting "f1" []] :=
  ⟨rfl, (SupressFeatureReporting_replay_then_suppress sampleBus "f1" (some []) 5).2.2.1 [] rfl⟩

/-! Lemmas about the ingredient binder. -/

theorem setIngredients_error_of_missing_required
    (ings : List Ingredient) (vals : List (String × JValue))
    (fields : List (String × FieldVal))
    (h : ∃ ing ∈ ings, ing.Required = true ∧ mapGet vals ing.ID = none) :
    ∃ e, setIngredients ings vals fields = .error e := by
  revert h
  induction ings generalizing fields with
  | nil => intro h; simp at h
  | cons a rest ih =>
    intro h
    obtain ⟨ing, hing, hreq, hnone⟩ := h
    rcases List.mem_cons.mp hing with rfl | hmem
    · have hb : bindOutcome vals ing = .error "Missing ingredient" := by
        simp [bindOutcome, hnone, hreq]
      exact ⟨"Missing ingredient", by simp [setIngredients, bindIngredient, hb]⟩
    · cases hb : bindIngredient vals fields a with
      | error e => exact ⟨e, by simp [setIngredients, hb]⟩
      | ok f2 =>
        obtain ⟨e, he⟩ := ih f2 ⟨ing, hmem, hreq, hnone⟩
        exact ⟨e, by simp [setIngredients, hb, he]⟩

theorem bindOutcome_mismatch (vals : List (String × JValue)) (ing : Ingredient) (v : JValue)
    (hv : mapGet vals ing.ID = some v)
    (ht : handledType ing.Typ = true)
    (hbad : valueTypeOk ing.Typ v = false) :
    bindOutcome vals ing = .error (mismatchMsg ing) := by
  simp only [handledType, Bool.or_eq_true, beq_iff_eq] at ht
  rcases ht with ((((h | h) | h) | h) | h) <;>
    cases v <;> simp_all [bindOutcome, valueTypeOk, mismatchMsg]

theorem setIngredients_first_mismatch
    (vals : List (String × JValue)) (fields : List (String × FieldVal))
    (pre : List Ingredient) (ing : Ingredient) (post : List Ingredient) (v : JValue)
    (hpre : ∀ i ∈ pre, bindErr vals i = none)
    (hv : mapGet vals ing.ID = some v)
    (ht : handledType ing.Typ = true)
    (hbad : valueTypeOk ing.Typ v = false) :
    setIngredients (pre ++ ing :: post) vals fields = .error (mismatchMsg ing) := by
  revert hpre
  induction pre generalizing fields with
  | nil =>
    intro _
    have hb := bindOutcome_mismatch vals ing v hv ht hbad
    simp [setIngredients, bindIngredient, hb]
  | cons a rest ih =>
    intro hpre
    have ha : bindErr vals a = none := hpre a (by simp)
    cases hb : bindOutcome vals a with
    | error e => simp [bindErr, hb] at ha
    | ok o =>
      cases o with
      | none =>
        have hba : bindIngredient vals fields a = .ok fields := by
          simp [bindIngredient, hb]
        simp only [List.cons_append, setIngredients, hba]
        exact ih fields (fun i hi => hpre i (by simp [hi]))
      | some fv =>
        have hba : bindIngredient vals fields a = .ok (mapSet fields a.ID fv) := by
          simp [bindIngredient, hb]
        simp only [List.cons_append, setIngredients, hba]
        exact ih (mapSet fields a.ID fv) (fun i hi => hpre i (by simp [hi]))

/-- C3: ingredient binding fails whenever a Required ingredient has no
submitted value; a present value whose type does not match the declared
ingredient type fails as the first violation with the error naming the
ingredient ID and the expected type; and a binding failure propagates out of
the instance construction, so the freshly constructed instance is never
produced (no partial binding is committed). -/
theorem setIngredients_required_and_mismatch (ings : List Ingredient)
    (vals : List (String × JValue)) (fields : List (String × FieldVal)) :
    ((∃ ing ∈ ings, ing.Required = true ∧ mapGet vals ing.ID = none) →
      ∃ e, setIngredients ings vals fields = .error e) ∧
    (∀ pre ing post v, ings = pre ++ ing :: post →
      (∀ i ∈ pre, bindErr vals i = none) →
      mapGet vals ing.ID = some v →
      handledType ing.Typ = true →
      valueTypeOk ing.Typ v = false →
      setIngredients ings vals fields = .error (mismatchMsg ing)) ∧
    (∀ rm tag variant e, mapGet rm.triggerFactory tag = some variant →
      setIngredients variant.ingredients vals (zeroFields variant.ingredients) = .error e →
      makeTrigger rm tag vals = some (.error e)) := by
  refine ⟨setIngredients_error_of_missing_required ings vals fields, ?_, ?_⟩
  · intro pre ing post v heq hpre hv ht hbad
    subst heq
    exact setIngredients_first_mismatch vals fields pre ing post v hpre hv ht hbad
  · intro rm tag variant e hf hs
    simp [makeTrigger, hf, hs]

/-- Witness for C3: binding the sample action's ingredients from an empty
submission fails (Level is required). -/
theorem setIngredients_required_and_mismatch_witness :
    (∃ ing ∈ sampleActionVariant.ingredients,
      ing.Required = true ∧ mapGet ([] : List (String × JValue)) ing.ID = none) ∧
    ∃ e, setIngredients sampleActionVariant.ingredients [] [] = .error e := by
  have hex : ∃ ing ∈ sampleActionVariant.ingredients,
      ing.Required = true ∧ mapGet ([] : List (String × JValue)) ing.ID = none := by
    refine ⟨({ ID := "Level", Name := "Intensity Level", Description := "The target intensity for the zone", Typ := "float", Required := true } : Ingredient), ?_, rfl, rfl⟩
    simp [sampleActionVariant]
  exact ⟨hex, (setIngredients_required_and_mismatch sampleActionVariant.ingredients [] []).1 hex⟩

/-! Lemmas about the validation-error object. -/

theorem NewErrorJSON_foldl_frame (item : List (String × String)) (clientID : String)
    (l : List validation.Error) (k : String)
    (hk : k ∉ validation.resolvedKeys item clientID { Errors := l }) :
    ∀ acc, mapGet (l.foldl (fun acc e =>
      match validation.JSONTagForField item e.Field with
      | .error _ => acc
      | .ok jsonField =>
        mapSet acc (clientID ++ "." ++ jsonField) [("message", e.MSG)]) acc) k
      = mapGet acc k := by
  induction l with
  | nil => intro acc; rfl
  | cons a rest ih =>
    intro acc
    cases ht : validation.JSONTagForField item a.Field with
    | error e2 =>
      have hk2 : k ∉ validation.resolvedKeys item clientID { Errors := rest } := by
        simpa [validation.resolvedKeys, List.filterMap_cons, ht] using hk
      simp only [List.foldl_cons, ht]
      exact ih hk2 acc
    | ok jf =>
      have hk' : ¬(k = clientID ++ "." ++ jf ∨
          k ∈ validation.resolvedKeys item clientID { Errors := rest }) := by
        simpa [validation.resolvedKeys, List.filterMap_cons, ht] using hk
      push_neg at hk'
      simp only [List.foldl_cons, ht]
      rw [ih hk'.2 _]
      exact mapGet_mapSet_ne acc (clientID ++ "." ++ jf) k _ hk'.1

theorem NewErrorJSON_foldl_mem (item : List (String × String)) (clientID : String)
    (l : List validation.Error)
    (hnodup : (validation.resolvedKeys item clientID { Errors := l }).Nodup)
    (e : validation.Error) (he : e ∈ l) (jf : String)
    (ht : validation.JSONTagForField item e.Field = .ok jf) :
    ∀ acc, mapGet (l.foldl (fun acc e =>
      match validation.JSONTagForField item e.Field with
      | .error _ => acc
      | .ok jsonField =>
        mapSet acc (clientID ++ "." ++ jsonField) [("message", e.MSG)]) acc)
      (clientID ++ "." ++ jf) = some [("message", e.MSG)] := by
  induction l with
  | nil => simp at he
  | cons a rest ih =>
    intro acc
    rcases List.mem_cons.mp he with rfl | hmem
    · have hcons : validation.resolvedKeys item clientID { Errors := e :: rest } =
          (clientID ++ "." ++ jf) ::
            validation.resolvedKeys item clientID { Errors := rest } := by
        simp [validation.resolvedKeys, List.filterMap_cons, ht]
      rw [hcons] at hnodup
      have hk := (List.nodup_cons.mp hnodup).1
      simp only [List.foldl_cons, ht]
      rw [NewErrorJSON_foldl_frame item clientID rest _ hk]
      exact mapGet_mapSet_self acc _ _
    · cases ha : validation.JSONTagForField item a.Field with
      | error e2 =>
        have hcons : validation.resolvedKeys item clientID { Errors := a :: rest } =
            validation.resolvedKeys item clientID { Errors := rest } := by
          simp [validation.resolvedKeys, List.filterMap_cons, ha]
        rw [hcons] at hnodup
        simp only [List.foldl_cons, ha]
        exact ih hnodup hmem acc
      | ok jfa =>
        have hcons : validation.resolvedKeys item clientID { Errors := a :: rest } =
            (clientID ++ "." ++ jfa) ::
              validation.resolvedKeys item clientID { Errors := rest } := by
          simp [validation.resolvedKeys, List.filterMap_cons, ha]
        rw [hcons] at hnodup
        have hnd := (List.nodup_cons.mp hnodup).2
        simp only [List.foldl_cons, ha]
        exact ih hnd hmem _

/-- C9: NewErrorJSON produces the structured object whose single errors field
maps each failed field — under the client-scoped json-tag key — to an object
holding that field's error message under the message key. -/
theorem NewErrorJSON_message_map (item : List (String × String)) (clientID : String)
    (errs : validation.Errors)
    (hnodup : (validation.resolvedKeys item clientID errs).Nodup) :
    ∀ e ∈ errs.Errors, ∀ jf, validation.JSONTagForField item e.Field = .ok jf →
      mapGet (validation.NewErrorJSON item clientID errs).Errors
        (clientID ++ "." ++ jf) = some [("message", e.MSG)] := by
  intro e he jf ht
  exact NewErrorJSON_foldl_mem item clientID errs.Errors hnodup e he jf ht []

/-- Witness for C9: a required-field error on the sample item is reported
under "d1.name" with its message. -/
theorem NewErrorJSON_message_map_witness :
    (validation.resolvedKeys [("Name", "json:\"name\"")] "d1"
      { Errors := [{ MSG := "required field", Field := "Name" }] }).Nodup ∧
    mapGet (validation.NewErrorJSON [("Name", "json:\"name\"")] "d1"
      { Errors := [{ MSG := "required field", Field := "Name" }] }).Errors
      "d1.name" = some [("message", "required field")] := by
  have hnd : (validation.resolvedKeys [("Name", "json:\"name\"")] "d1"
      { Errors := [{ MSG := "required field", Field := "Name" }] }).Nodup := by
    decide
  refine ⟨hnd, ?_⟩
  have h := NewErrorJSON_message_map [("Name", "json:\"name\"")] "d1"
    { Errors := [{ MSG := "required field", Field := "Name" }] } hnd
    { MSG := "required field", Field := "Name" } (by simp) "name" rfl
  simpa using h

/-- C4: UnmarshalNewRecipe validates presence and type of name, description,
trigger, trigger.id, trigger.ingredients, action, action.id,
action.ingredients and the existence of the trigger/action IDs in the
factories, in source order, returning the descriptive error of the first
violation; on success it returns a new Recipe whose trigger is enabled —
the function returns only the Recipe, persisting nothing and registering
nothing. -/
theorem UnmarshalNewRecipe_fail_fast (rm : RecipeManager) (data : List (String × JValue)) :
    (mapGet data "name" = none →
      UnmarshalNewRecipe rm data = .error "Missing name key") ∧
    (∀ nv, mapGet data "name" = some nv → asString nv = none →
      UnmarshalNewRecipe rm data = .error "Invalid value for name, must be a string") ∧
    (∀ name, mapGet data "name" = some (.str name) →
      mapGet data "description" = none →
      UnmarshalNewRecipe rm data = .error "Missing description key") ∧
    (∀ name dv, mapGet data "name" = some (.str name) →
      mapGet data "description" = some dv → asString dv = none →
      UnmarshalNewRecipe rm data = .error "Invalid value for description, must be a string") ∧
    (∀ name desc, mapGet data "name" = some (.str name) →
      mapGet data "description" = some (.str desc) →
      mapGet data "trigger" = none →
      UnmarshalNewRecipe rm data = .error "Missing trigger key") ∧
    (∀ name desc tv2, mapGet data "name" = some (.str name) →
      mapGet data "description" = some (.str desc) →
      mapGet data "trigger" = some tv2 → asObj tv2 = none →
      UnmarshalNewRecipe rm data = .error "Invalid value for trigger, must be an object") ∧
    (∀ name desc td, mapGet data "name" = some (.str name) →
      mapGet data "description" = some (.str desc) →
      mapGet data "trigger" = some (.obj td) →
      mapGet td "id" = none →
      UnmarshalNewRecipe rm data = .error "Missing id key in trigger object") ∧
    (∀ name desc td iv, mapGet data "name" = some (.str name) →
      mapGet data "description" = some (.str desc) →
      mapGet data "trigger" = some (.obj td) →
      mapGet td "id" = some iv → asString iv = none →
      UnmarshalNewRecipe rm data = .error "Invalid value, trigger.id must be a string") ∧
    (∀ name desc td tid, mapGet data "name" = some (.str name) →
      mapGet data "description" = some (.str desc) →
      mapGet data "trigger" = some (.obj td) →
      mapGet td "id" = some (.str tid) →
      mapGet td "ingredients" = none →
      UnmarshalNewRecipe rm data = .error "Missing trigger.ingredients key") ∧
    (∀ name desc td tid gv, mapGet data "name" = some (.str name) →
      mapGet data "description" = some (.str desc) →
      mapGet data "trigger" = some (.obj td) →
      mapGet td "id" = some (.str tid) →
      mapGet td "ingredients" = some gv → asObj gv = none →
      UnmarshalNewRecipe rm data = .error "Invalid value for trigger.ingredients, must be an object") ∧
    (∀ name desc td tid ting, mapGet data "name" = some (.str name) →
      mapGet data "description" = some (.str desc) →
      mapGet data "trigger" = some (.obj td) →
      mapGet td "id" = some (.str tid) →
      mapGet td "ingredients" = some (.obj ting) →
      mapGet rm.triggerFactory tid = none →
      UnmarshalNewRecipe rm data = .error ("Invalid trigger ID: " ++ tid)) ∧
    (∀ name desc td tid ting tvar, mapGet data "name" = some (.str name) →
      mapGet data "description" = some (.str desc) →
      mapGet data "trigger" = some (.obj td) →
      mapGet td "id" = some (.str tid) →
      mapGet td "ingredients" = some (.obj ting) →
      mapGet rm.triggerFactory tid = some tvar →
      mapGet data "action" = none →
      UnmarshalNewRecipe rm data = .error "Missing action key") ∧
    (∀ name desc td tid ting tvar av2, mapGet data "name" = some (.str name) →
      mapGet data "description" = some (.str desc) →
      mapGet data "trigger" = some (.obj td) →
      mapGet td "id" = some (.str tid) →
      mapGet td "ingredients" = some (.obj ting) →
      mapGet rm.triggerFactory tid = some tvar →
      mapGet data "action" = some av2 → asObj av2 = none →
      UnmarshalNewRecipe rm data = .error "Invalid value for action, must be an object") ∧
    (∀ name desc td tid ting tvar ad, mapGet data "name" = some (.str name) →
      mapGet data "description" = some (.str desc) →
      mapGet data "trigger" = some (.obj td) →
      mapGet td "id" = some (.str tid) →
      mapGet td "ingredients" = some (.obj ting) →
      mapGet rm.triggerFactory tid = some tvar →
      mapGet data "action" = some (.obj ad) →
      mapGet ad "id" = none →
      UnmarshalNewRecipe rm data = .error "Missing id key in action object") ∧
    (∀ name desc td tid ting tvar ad iv, mapGet data "name" = some (.str name) →
      mapGet data "description" = some (.str desc) →
      mapGet data "trigger" = some (.obj td) →
      mapGet td "id" = some (.str tid) →
      mapGet td "ingredients" = some (.obj ting) →
      mapGet rm.triggerFactory tid = some tvar →
      mapGet data "action" = some (.obj ad) →
      mapGet ad "id" = some iv → asString iv = none →
      UnmarshalNewRecipe rm data = .error "Invalid value, action.id must be a string") ∧
    (∀ name desc td tid ting tvar ad aid, mapGet data "name" = some (.str name) →
      mapGet data "description" = some (.str desc) →
      mapGet data "trigger" = some (.obj td) →
      mapGet td "id" = some (.str tid) →
      mapGet td "ingredients" = some (.obj ting) →
      mapGet rm.triggerFactory tid = some tvar →
      mapGet data "action" = some (.obj ad) →
      mapGet ad "id" = some (.str aid) →
      mapGet ad "ingredients" = none →
      UnmarshalNewRecipe rm data = .error "Missing action.ingredients key") ∧
    (∀ name desc td tid ting tvar ad aid gv, mapGet data "name" = some (.str name) →
      mapGet data "description" = some (.str desc) →
      mapGet data "trigger" = some (.obj td) →
      mapGet td "id" = some (.str tid) →
      mapGet td "ingredients" = some (.obj ting) →
      mapGet rm.triggerFactory tid = some tvar →
      mapGet data "action" = some (.obj ad) →
      mapGet ad "id" = some (.str aid) →
      mapGet ad "ingredients" = some gv → asObj gv = none →
      UnmarshalNewRecipe rm data = .error "Invalid value for action.ingredients, must be an object") ∧
    (∀ name desc td tid ting tvar ad aid aing, mapGet data "name" = some (.str name) →
      mapGet data "description" = some (.str desc) →
      mapGet data "trigger" = some (.obj td) →
      mapGet td "id" = some (.str tid) →
      mapGet td "ingredients" = some (.obj ting) →
      mapGet rm.triggerFactory tid = some tvar →
      mapGet data "action" = some (.obj ad) →
      mapGet ad "id" = some (.str aid) →
      mapGet ad "ingredients" = some (.obj aing) →
      mapGet rm.actionFactory aid = none →
      UnmarshalNewRecipe rm data = .error ("Invalid action ID: " ++ aid)) ∧
    (∀ name desc td tid ting tvar ad aid aing avar tfs afs,
      mapGet data "name" = some (.str name) →
      mapGet data "description" = some (.str desc) →
      mapGet data "trigger" = some (.obj td) →
      mapGet td "id" = some (.str tid) →
      mapGet td "ingredients" = some (.obj ting) →
      mapGet rm.triggerFactory tid = some tvar →
      mapGet data "action" = some (.obj ad) →
      mapGet ad "id" = some (.str aid) →
      mapGet ad "ingredients" = some (.obj aing) →
      mapGet rm.actionFactory aid = some avar →
      setIngredients tvar.ingredients ting (zeroFields tvar.ingredients) = .ok tfs →
      setIngredients avar.ingredients aing (zeroFields avar.ingredients) = .ok afs →
      UnmarshalNewRecipe rm data = .ok
        { Identifiable := { ID := "", Name := name, Description := desc }
          Trigger := { variant := tvar, enabled := true, fields := tfs }
          Action := { variant := avar, fields := afs } }) := by
  refine ⟨?_, ?_, ?_, ?_, ?_, ?_, ?_, ?_, ?_, ?_, ?_, ?_, ?_, ?_, ?_, ?_, ?_, ?_, ?_⟩
  · intro h1
    simp [UnmarshalNewRecipe, h1]
  · intro nv h1 h2
    cases nv <;> simp_all [UnmarshalNewRecipe, asString, h1]
  · intro name h1 h2
    simp [UnmarshalNewRecipe, asString, h1, h2]
  · intro name dv h1 h2 h3
    cases dv <;> simp_all [UnmarshalNewRecipe, asString, h1, h2]
  · intro name desc h1 h2 h3
    simp [UnmarshalNewRecipe, asString, h1, h2, h3]
  · intro name desc tv2 h1 h2 h3 h4
    cases tv2 <;> simp_all [UnmarshalNewRecipe, asString, asObj, h1, h2, h3]
  · intro name desc td h1 h2 h3 h4
    simp [UnmarshalNewRecipe, asString, asObj, h1, h2, h3, h4]
  · intro name desc td iv h1 h2 h3 h4 h5
    cases iv <;> simp_all [UnmarshalNewRecipe, asString, asObj, h1, h2, h3, h4]
  · intro name desc td tid h1 h2 h3 h4 h5
    simp [UnmarshalNewRecipe, asString, asObj, h1, h2, h3, h4, h5]
  · intro name desc td tid gv h1 h2 h3 h4 h5 h6
    cases gv <;> simp_all [UnmarshalNewRecipe, asString, asObj, h1, h2, h3, h4, h5]
  · intro name desc td tid ting h1 h2 h3 h4 h5 h6
    simp [UnmarshalNewRecipe, asString, asObj, h1, h2, h3, h4, h5, h6]
  · intro name desc td tid ting tvar h1 h2 h3 h4 h5 h6 h7
    simp [UnmarshalNewRecipe, asString, asObj, h1, h2, h3, h4, h5, h6, h7]
  · intro name desc td tid ting tvar av2 h1 h2 h3 h4 h5 h6 h7 h8
    cases av2 <;>
      simp_all [UnmarshalNewRecipe, asString, asObj, h1, h2, h3, h4, h5, h6, h7]
  · intro name desc td tid ting tvar ad h1 h2 h3 h4 h5 h6 h7 h8
    simp [UnmarshalNewRecipe, asString, asObj, h1, h2, h3, h4, h5, h6, h7, h8]
  · intro name desc td tid ting tvar ad iv h1 h2 h3 h4 h5 h6 h7 h8 h9
    cases iv <;>
      simp_all [UnmarshalNewRecipe, asString, asObj, h1, h2, h3, h4, h5, h6, h7, h8]
  · intro name desc td tid ting tvar ad aid h1 h2 h3 h4 h5 h6 h7 h8 h9
    simp [UnmarshalNewRecipe, asString, asObj, h1, h2, h3, h4, h5, h6, h7, h8, h9]
  · intro name desc td tid ting tvar ad aid gv h1 h2 h3 h4 h5 h6 h7 h8 h9 h10
    cases gv <;>
      simp_all [UnmarshalNewRecipe, asString, asObj, h1, h2, h3, h4, h5, h6, h7, h8, h9]
  · intro name desc td tid ting tvar ad aid aing h1 h2 h3 h4 h5 h6 h7 h8 h9 h10
    simp [UnmarshalNewRecipe, asString, asObj, h1, h2, h3, h4, h5, h6, h7, h8, h9, h10]
  · intro name desc td tid ting tvar ad aid aing avar tfs afs h1 h2 h3 h4 h5 h6 h7 h8 h9 h10 h11 h12
    simp [UnmarshalNewRecipe, NewRecipe, asString, asObj,
      h1, h2, h3, h4, h5, h6, h7, h8, h9, h10, h11, h12]

/-- Witness for C4: the sample submission produces the enabled sample
recipe (with an empty ID, not yet persisted or registered). -/
theorem UnmarshalNewRecipe_fail_fast_witness :
    mapGet sampleSubmission "name" = some (.str "Evening Lights") ∧
    setIngredients sampleTriggerVariant.ingredients
      [("Time", .str "20:00"), ("Interval", .num 5000)]
      (zeroFields sampleTriggerVariant.ingredients) = .ok sampleTrigger.fields ∧
    (UnmarshalNewRecipe sampleManager sampleSubmission = .ok
      { Identifiable := { ID := "", Name := "Evening Lights", Description := "demo" }
        Trigger := { variant := sampleTriggerVariant, enabled := true, fields := sampleTrigger.fields }
        Action := { variant := sampleActionVariant, fields := sampleAction.fields } }) :=
  ⟨rfl, rfl,
    (UnmarshalNewRecipe_fail_fast sampleManager sampleSubmission).2.2.2.2.2.2.2.2.2.2.2.2.2.2.2.2.2.2
      "Evening Lights" "demo"
      [("id", .str "gohome.TimeTrigger"),
        ("ingredients", .obj [("Time", .str "20:00"), ("Interval", .num 5000)])]
      "gohome.TimeTrigger"
      [("Time", .str "20:00"), ("Interval", .num 5000)]
      sampleTriggerVariant
      [("id", .str "gohome.ZoneSetLevelAction"),
        ("ingredients", .obj [("Level", .num 75), ("ZoneID", .str "z1")])]
      "gohome.ZoneSetLevelAction"
      [("Level", .num 75), ("ZoneID", .str "z1")]
      sampleActionVariant
      sampleTrigger.fields sampleAction.fields
      rfl rfl rfl rfl rfl rfl rfl rfl rfl rfl rfl rfl⟩

/-! Lemmas for the save/load round trip. -/

theorem ratTrunc_intCast (n : Int) : ratTrunc (n : ℚ) = n := by
  simp [ratTrunc, Rat.num_intCast, Rat.den_intCast, Int.tdiv_one]

theorem tdiv_millis_cancel {n : Int} (h : n % 1000000 = 0) :
    Int.tdiv n 1000000 * 1000000 = n := by
  obtain ⟨c, rfl⟩ := Int.dvd_of_emod_eq_zero h
  rw [Int.mul_tdiv_cancel_left c (by norm_num), mul_comm]

theorem getIngredientValueMap_foldl_frame (fields : List (String × FieldVal))
    (ings : List Ingredient) (k : String) (hk : k ∉ ings.map Ingredient.ID) :
    ∀ acc, mapGet (ings.foldl
      (fun values ing => mapSet values ing.ID (ingredientSavedValue ing fields)) acc) k
      = mapGet acc k := by
  induction ings with
  | nil => intro acc; rfl
  | cons a rest ih =>
    intro acc
    have hka : k ≠ a.ID := by
      intro hh; exact hk (by simp [hh])
    have hkr : k ∉ rest.map Ingredient.ID := fun hh => hk (by simp [hh])
    simp only [List.foldl_cons]
    rw [ih hkr _, mapGet_mapSet_ne _ _ _ _ hka]

theorem getIngredientValueMap_foldl_mem (fields : List (String × FieldVal))
    (ings : List Ingredient)
    (hnd : (ings.map Ingredient.ID).Nodup) (ing : Ingredient) (hing : ing ∈ ings) :
    ∀ acc, mapGet (ings.foldl
      (fun values ing2 => mapSet values ing2.ID (ingredientSavedValue ing2 fields)) acc)
      ing.ID = some (ingredientSavedValue ing fields) := by
  induction ings with
  | nil => simp at hing
  | cons a rest ih =>
    intro acc
    rw [List.map_cons, List.nodup_cons] at hnd
    rcases List.mem_cons.mp hing with rfl | hmem
    · simp only [List.foldl_cons]
      rw [getIngredientValueMap_foldl_frame fields rest _ hnd.1 _]
      exact mapGet_mapSet_self acc _ _
    · simp only [List.foldl_cons]
      exact ih hnd.2 hmem _

theorem getIngredientValueMap_mem (fields : List (String × FieldVal))
    (ings : List Ingredient)
    (hnd : (ings.map Ingredient.ID).Nodup) (ing : Ingredient) (hing : ing ∈ ings) :
    mapGet (getIngredientValueMap ings fields) ing.ID =
      some (ingredientSavedValue ing fields) :=
  getIngredientValueMap_foldl_mem fields ings hnd ing hing []

theorem ingFieldOk_spec (fields : List (String × FieldVal)) (ing : Ingredient)
    (h : ingFieldOk fields ing = true) :
    handledType ing.Typ = true ∧
    ∃ fv, mapGet fields ing.ID = some fv ∧ fieldTyped ing.Typ fv = true ∧ durOk fv = true := by
  simp only [ingFieldOk, Bool.and_eq_true] at h
  refine ⟨h.1, ?_⟩
  have h2 := h.2
  rcases hg : mapGet fields ing.ID with _ | fv
  · rw [hg] at h2; simp at h2
  · rw [hg] at h2
    simp only [Bool.and_eq_true] at h2
    exact ⟨fv, rfl, h2.1, h2.2⟩

theorem wellBound_spec (ings : List Ingredient) (fields : List (String × FieldVal))
    (h : wellBound ings fields = true) :
    (ings.map Ingredient.ID).Nodup ∧ ∀ ing ∈ ings, ingFieldOk fields ing = true := by
  simp only [wellBound, Bool.and_eq_true, decide_eq_true_eq, List.all_eq_true] at h
  exact h

theorem bindOutcome_saved (vals : List (String × JValue)) (ing : Ingredient)
    (fields : List (String × FieldVal)) (fv : FieldVal)
    (hg : mapGet fields ing.ID = some fv)
    (ht : handledType ing.Typ = true)
    (hty : fieldTyped ing.Typ fv = true)
    (hdur : durOk fv = true)
    (hv : mapGet vals ing.ID = some (ingredientSavedValue ing fields)) :
    bindOutcome vals ing = .ok (some fv) := by
  simp only [handledType, Bool.or_eq_true, beq_iff_eq] at ht
  rcases ht with ((((h | h) | h) | h) | h) <;>
    cases fv <;>
      simp_all [bindOutcome, fieldTyped, ingredientSavedValue, durOk, mapGetD,
        fieldInterface, fieldInt, ratTrunc_intCast, tdiv_millis_cancel]

theorem setIngredients_ok_frame (vals : List (String × JValue)) (ings : List Ingredient)
    (k : String) (hk : k ∉ ings.map Ingredient.ID) :
    ∀ fields f, setIngredients ings vals fields = .ok f → mapGet f k = mapGet fields k := by
  induction ings with
  | nil =>
    intro fields f h
    simp only [setIngredients] at h
    cases h
    rfl
  | cons a rest ih =>
    intro fields f h
    have hka : k ≠ a.ID := fun hh => hk (by simp [hh])
    have hkr : k ∉ rest.map Ingredient.ID := fun hh => hk (by simp [hh])
    cases hb : bindOutcome vals a with
    | error e => simp [setIngredients, bindIngredient, hb] at h
    | ok o =>
      cases o with
      | none =>
        have h2 : setIngredients rest vals fields = .ok f := by
          simpa [setIngredients, bindIngredient, hb] using h
        exact ih hkr fields f h2
      | some fv =>
        have h2 : setIngredients rest vals (mapSet fields a.ID fv) = .ok f := by
          simpa [setIngredients, bindIngredient, hb] using h
        rw [ih hkr _ f h2]
        exact mapGet_mapSet_ne fields a.ID k fv hka

theorem setIngredients_roundtrip (fields : List (String × FieldVal))
    (ings : List Ingredient) (vals : List (String × JValue))
    (hnd : (ings.map Ingredient.ID).Nodup)
    (hok : ∀ ing ∈ ings, ingFieldOk fields ing = true)
    (hv : ∀ ing ∈ ings, mapGet vals ing.ID = some (ingredientSavedValue ing fields)) :
    ∀ f0, ∃ f, setIngredients ings vals f0 = .ok f ∧
      ∀ ing ∈ ings, mapGet f ing.ID = mapGet fields ing.ID := by
  induction ings with
  | nil => intro f0; exact ⟨f0, rfl, by simp⟩
  | cons a rest ih =>
    intro f0
    obtain ⟨hta, fva, hga, htya, hdura⟩ := ingFieldOk_spec fields a (hok a (by simp))
    have hbo := bindOutcome_saved vals a fields fva hga hta htya hdura (hv a (by simp))
    rw [List.map_cons, List.nodup_cons] at hnd
    obtain ⟨f, hf, hlook⟩ := ih hnd.2 (fun i hi => hok i (by simp [hi]))
      (fun i hi => hv i (by simp [hi])) (mapSet f0 a.ID fva)
    refine ⟨f, ?_, ?_⟩
    · simp [setIngredients, bindIngredient, hbo, hf]
    · intro ing hing
      rcases List.mem_cons.mp hing with rfl | hmem
      · rw [setIngredients_ok_frame vals rest ing.ID hnd.1 _ f hf,
          mapGet_mapSet_self, hga]
      · exact hlook ing hmem

/-- C1: a Recipe saved with SaveRecipe and reloaded with loadRecipe from the
written file yields a Recipe with the same Trigger variant type, the same
Action variant type, the same enabled flag, and every ingredient value equal
to the original (durations serialized as integer milliseconds and converted
back).  Hypotheses: the factories map the recipe's variant tags to its
variants — which is how buildTriggerFactory/buildActionFactory construct
them (part_002 lines 426-444) — and both instances are well bound for their
ingredient schemas, which is what setIngredients produces (the unimplemented
datetime type being the spec's acknowledged gap). -/
theorem SaveRecipe_loadRecipe_roundtrip (rm : RecipeManager) (r : Recipe) (appendTo : Bool)
    (hT : mapGet rm.triggerFactory r.Trigger.variant.tag = some r.Trigger.variant)
    (hA : mapGet rm.actionFactory r.Action.variant.tag = some r.Action.variant)
    (hwT : wellBound r.Trigger.variant.ingredients r.Trigger.fields = true)
    (hwA : wellBound r.Action.variant.ingredients r.Action.fields = true) :
    ∃ w r2,
      (SaveRecipe rm r appendTo none none).2 = none ∧
      mapGet (SaveRecipe rm r appendTo none none).1.files (recipePath rm r) = some w ∧
      loadRecipe (SaveRecipe rm r appendTo none none).1 w = some (.ok r2) ∧
      r2.Trigger.variant.tag = r.Trigger.variant.tag ∧
      r2.Action.variant.tag = r.Action.variant.tag ∧
      r2.Trigger.enabled = r.Trigger.enabled ∧
      r2.Identifiable = r.Identifiable ∧
      (∀ ing ∈ r.Trigger.variant.ingredients,
        mapGet r2.Trigger.fields ing.ID = mapGet r.Trigger.fields ing.ID) ∧
      (∀ ing ∈ r.Action.variant.ingredients,
        mapGet r2.Action.fields ing.ID = mapGet r.Action.fields ing.ID) := by
  obtain ⟨hndT, hokT⟩ := wellBound_spec _ _ hwT
  obtain ⟨hndA, hokA⟩ := wellBound_spec _ _ hwA
  have hvT : ∀ ing ∈ r.Trigger.variant.ingredients,
      mapGet (getIngredientValueMap r.Trigger.variant.ingredients r.Trigger.fields) ing.ID
        = some (ingredientSavedValue ing r.Trigger.fields) :=
    fun ing hing => getIngredientValueMap_mem r.Trigger.fields _ hndT ing hing
  have hvA : ∀ ing ∈ r.Action.variant.ingredients,
      mapGet (getIngredientValueMap r.Action.variant.ingredients r.Action.fields) ing.ID
        = some (ingredientSavedValue ing r.Action.fields) :=
    fun ing hing => getIngredientValueMap_mem r.Action.fields _ hndA ing hing
  obtain ⟨tf, htf, hlookT⟩ := setIngredients_roundtrip r.Trigger.fields _ _ hndT hokT hvT
    (zeroFields r.Trigger.variant.ingredients)
  obtain ⟨af, haf, hlookA⟩ := setIngredients_roundtrip r.Action.fields _ _ hndA hokA hvA
    (zeroFields r.Action.variant.ingredients)
  refine ⟨serializeRecipe r,
    { Identifiable := r.Identifiable
      Trigger := { variant := r.Trigger.variant, enabled := r.Trigger.enabled, fields := tf }
      Action := { variant := r.Action.variant, fields := af } },
    rfl, ?_, ?_, rfl, rfl, rfl, rfl, ?_, ?_⟩
  · simp [SaveRecipe, mapGet_mapSet_self]
  · simp [SaveRecipe, loadRecipe, makeTrigger, makeAction, serializeRecipe, hT, hA, htf, haf]
  · intro ing hing
    exact hlookT ing hing
  · intro ing hing
    exact hlookA ing hing

/-- Witness for C1 at the sample recipe (string, duration, float and string
ingredients). -/
theorem SaveRecipe_loadRecipe_roundtrip_witness :
    mapGet sampleManager.triggerFactory sampleRecipe.Trigger.variant.tag =
      some sampleRecipe.Trigger.variant ∧
    mapGet sampleManager.actionFactory sampleRecipe.Action.variant.tag =
      some sampleRecipe.Action.variant ∧
    wellBound sampleRecipe.Trigger.variant.ingredients sampleRecipe.Trigger.fields = true ∧
    wellBound sampleRecipe.Action.variant.ingredients sampleRecipe.Action.fields = true ∧
    (∃ w r2,
      (SaveRecipe sampleManager sampleRecipe false none none).2 = none ∧
      mapGet (SaveRecipe sampleManager sampleRecipe false none none).1.files
        (recipePath sampleManager sampleRecipe) = some w ∧
      loadRecipe (SaveRecipe sampleManager sampleRecipe false none none).1 w =
        some (.ok r2) ∧
      r2.Trigger.variant.tag = sampleRecipe.Trigger.variant.tag ∧
      r2.Action.variant.tag = sampleRecipe.Action.variant.tag ∧
      r2.Trigger.enabled = sampleRecipe.Trigger.enabled ∧
      r2.Identifiable = sampleRecipe.Identifiable ∧
      (∀ ing ∈ sampleRecipe.Trigger.variant.ingredients,
        mapGet r2.Trigger.fields ing.ID = mapGet sampleRecipe.Trigger.fields ing.ID) ∧
      (∀ ing ∈ sampleRecipe.Action.variant.ingredients,
        mapGet r2.Action.fields ing.ID = mapGet sampleRecipe.Action.fields ing.ID)) :=
  ⟨rfl, rfl, rfl, rfl,
    SaveRecipe_loadRecipe_roundtrip sampleManager sampleRecipe false rfl rfl rfl rfl⟩
